import Mathlib

/-!
Verification of the `lfim` interactive session engine (Go sources under
`internal/tui`, `internal/claude`, `internal/storage`) against its
natural-language specification.

Texts are modelled as lists of runes (`List Char`); the terminal display
width of a rune is an arbitrary function `rw : Char → Nat`, standing for
`runewidth.RuneWidth` of the external `mattn/go-runewidth` package (whose
widths are 0, 1 or 2).  Go `int` values are modelled as `Int`.
-/

namespace Lfim

/-- Embeds `runewidth.StringWidth`: sum of the display widths of the runes. -/
def stringWidth (rw : Char → Nat) (s : List Char) : Nat :=
  (s.map rw).sum

/-- The scanning loop of `runewidth.Truncate` with an empty tail: the maximal
prefix of runes whose cumulative width, starting from `width`, stays ≤ `w`
(a rune is taken only while `width + rw c ≤ w`). -/
def truncTake (rw : Char → Nat) (w : Int) : List Char → Int → List Char
  | [], _ => []
  | c :: cs, width =>
    if width + (rw c : Int) > w then []
    else c :: truncTake rw w cs (width + (rw c : Int))

/-- Embeds `runewidth.Truncate(s, w, "")`: returns `s` unchanged when it already fits,
otherwise the widest prefix of display width ≤ `w`. -/
def truncate (rw : Char → Nat) (w : Int) (s : List Char) : List Char :=
  if (stringWidth rw s : Int) ≤ w then s else truncTake rw w s 0

/-- Embeds `strings.Split(text, "\n")`. -/
def splitOnNl : List Char → List (List Char)
  | [] => [[]]
  | c :: cs =>
    if c = '\n' then [] :: splitOnNl cs
    else
      match splitOnNl cs with
      | [] => [[c]]
      | l :: ls => (c :: l) :: ls

/-- Embeds `strings.Join(lines, "\n")`. -/
def joinNl : List (List Char) → List Char
  | [] => []
  | [l] => l
  | l :: l' :: ls => l ++ '\n' :: joinNl (l' :: ls)

/-- The inner loop of `wrapText` on a single (newline-free) line:
`for StringWidth(line) > width { wrapped := Truncate(line, width, "");
emit wrapped; line = line[len(wrapped):] }` followed by emitting the residue.
The Go loop need not terminate (when `Truncate` returns an empty prefix the
line never shrinks), so the recursion is indexed by fuel and `none` models
divergence. -/
def wrapLineFuel (rw : Char → Nat) (w : Int) : Nat → List Char → Option (List (List Char))
  | 0, line => if (stringWidth rw line : Int) ≤ w then some [line] else none
  | Nat.succ fuel', line =>
    if (stringWidth rw line : Int) ≤ w then some [line]
    else
      match wrapLineFuel rw w fuel' (line.drop (truncate rw w line).length) with
      | none => none
      | some rest => some (truncate rw w line :: rest)

/-- Embeds `wrapLineFuel` mapped over all lines of the input. -/
def wrapLinesFuel (rw : Char → Nat) (w : Int) (fuel : Nat) :
    List (List Char) → Option (List (List (List Char)))
  | [] => some []
  | l :: ls =>
    match wrapLineFuel rw w fuel l, wrapLinesFuel rw w fuel ls with
    | some c, some cs => some (c :: cs)
    | _, _ => none

/-- Embeds `wrapText(text, width)` from `internal/tui/app.go`: returns the input for
non-positive width, otherwise splits on newlines, wraps every line by repeated
display-width truncation, and joins everything with newlines.  `none` models
the divergence of the Go loop. -/
def wrapTextFuel (rw : Char → Nat) (fuel : Nat) (text : List Char) (width : Int) :
    Option (List Char) :=
  if width ≤ 0 then some text
  else
    match wrapLinesFuel rw width fuel (splitOnNl text) with
    | none => none
    | some chunkss => some (joinNl (chunkss.map joinNl))

/-- The rune-skipping loop of `applyHorizontalOffset`: starting at cumulative
width `cw`, count how many leading runes fit strictly inside `offset` columns;
returns the count and the cumulative width reached. -/
def skipCount (rw : Char → Nat) (offset : Int) : List Char → Int → Nat × Int
  | [], cw => (0, cw)
  | c :: cs, cw =>
    if cw + (rw c : Nat) > offset then (0, cw)
    else
      match skipCount rw offset cs (cw + (rw c : Nat)) with
      | (n, w) => (n + 1, w)

/-- Per-line body of `applyHorizontalOffset`: empty result when the offset is
past the line, otherwise drop the skipped runes, pad with one space when the
offset fell inside a wide rune, and truncate to `width` when `width > 0`. -/
def shiftLine (rw : Char → Nat) (offset width : Int) (line : List Char) : List Char :=
  if offset ≥ (stringWidth rw line : Int) then []
  else
    match skipCount rw offset line 0 with
    | (n, cw) =>
      let remaining := line.drop n
      let remaining := if cw < offset then ' ' :: remaining else remaining
      if width > 0 then truncate rw width remaining else remaining

/-- Embeds `applyHorizontalOffset(content, offset, width)` from `internal/tui/app.go`:
a no-op only when both `offset ≤ 0` and `width ≤ 0`; otherwise every line is
shifted by `offset` display columns and truncated to `width`. -/
def applyHorizontalOffset (rw : Char → Nat) (content : List Char) (offset width : Int) :
    List Char :=
  if offset ≤ 0 ∧ width ≤ 0 then content
  else joinNl ((splitOnNl content).map (shiftLine rw offset width))

/-- Embeds `calculateMaxLineWidth(content)`: the maximum display width of any line. -/
def calculateMaxLineWidth (rw : Char → Nat) (content : List Char) : Nat :=
  ((splitOnNl content).map (stringWidth rw)).foldl max 0

/-- A sample rune-width table: the CJK ideograph range is two columns wide and
everything else one column, matching `go-runewidth` on the characters used in
the concrete evaluations below. -/
def rwDemo (c : Char) : Nat :=
  if 0x4E00 ≤ c.toNat ∧ c.toNat ≤ 0x9FFF then 2 else 1

end Lfim

namespace Lfim

/-- Issue lifecycle status (`internal/model`).  `StatusOpen` is rendered as
`opened` because `open` is a keyword. -/
inductive IssueStatus where
  | opened | analyzed | planned | implemented | closed | invalid
  deriving DecidableEq

/-- Issue category (`internal/model`). -/
inductive IssueType where
  | feature | bug | refactor
  deriving DecidableEq

/-- Embeds `IssueType.Icon()`. -/
def IssueType.icon : IssueType → String
  | .feature => "💡"
  | .bug => "💥"
  | .refactor => "🔧"

/-- An issue as held by the TUI (`internal/model.Issue`; the creation
timestamp is not read by any embedded operation and is omitted). -/
structure Issue where
  id : String
  title : String
  ty : IssueType
  status : IssueStatus
  content : String
  deriving DecidableEq

/-- Embeds `Issue.StatusIcon()`. -/
def Issue.statusIcon (i : Issue) : String :=
  match i.status with
  | .opened => "○"
  | .analyzed => "◐"
  | .planned => "●"
  | .implemented => "◉"
  | .closed => "✓"
  | .invalid => "✗"

/-- Embeds `FilterMode` with its cyclic successor `(f+1) % 3`. -/
inductive FilterMode where
  | active | all | closed
  deriving DecidableEq

def FilterMode.next : FilterMode → FilterMode
  | .active => .all
  | .all => .closed
  | .closed => .active

/-- Embeds `FilterMode.String()`. -/
def FilterMode.display : FilterMode → String
  | .active => "Active"
  | .all => "All"
  | .closed => "Closed"

/-- Embeds `AppState`: the exclusive modal state of the UI. -/
inductive AppState where
  | normal | input | confirm | typeSelect | reviewPreview | planPreview
  | commitConfirm | commitGenerating
  deriving DecidableEq

/-- Embeds `InputMode`: what the text-input overlay is collecting. -/
inductive InputMode where
  | none | newIssue | review | planReview
  deriving DecidableEq

/-- The Go model stores the pending confirm callback as a closure
(`m.confirmAction = func() {...}`).  The three closures that occur are
represented as a tagged action. -/
inductive ConfirmAction where
  | discard (issueID : String)
  | reAnalyze
  | rePlan
  deriving DecidableEq

/-- Key bindings (`keys.go`); a binding is the list of key names it matches. -/
structure KeyMap where
  up : List String
  down : List String
  new : List String
  edit : List String
  close : List String
  discard : List String
  analyze : List String
  plan : List String
  review : List String
  planReview : List String
  implement : List String
  refresh : List String
  filter : List String
  quit : List String
  enter : List String
  escape : List String
  yes : List String
  no : List String
  deriving DecidableEq

/-- Embeds `DefaultKeyMap()`. -/
def DefaultKeyMap : KeyMap where
  up := ["up", "k"]
  down := ["down", "j"]
  new := ["n"]
  edit := ["e", "enter"]
  close := ["c"]
  discard := ["d"]
  analyze := ["a"]
  plan := ["p"]
  review := ["R"]
  planReview := ["P"]
  implement := ["i"]
  refresh := ["r"]
  filter := ["f"]
  quit := ["q", "ctrl+c"]
  enter := ["enter"]
  escape := ["esc"]
  yes := ["y", "Y"]
  no := ["n", "N"]

/-- Embeds `key.Matches`: the key message (identified by its string form) is one of
the binding's keys. -/
def kmatches (k : String) (binding : List String) : Bool :=
  binding.contains k

/-- Embeds `claude.TaskResult`. -/
structure TaskResult where
  issueID : String
  taskType : String
  success : Bool
  result : String
  sessionID : String
  deriving DecidableEq

/-- The prompts built by `internal/claude/prompts.go`.  Each builder applies a
fixed format string to its arguments, so a prompt is faithfully represented by
the builder used and the arguments fed to it (the constant template text is
irrelevant to every claim). -/
inductive Prompt where
  | analysis (briefContent briefPath : String)
  | plan (briefContent analysisContent : String)
  | review (analysisContent feedback : String)
  | planReview (planContent feedback : String)
  | implement (planPath : String)
  | commitMessage (issueID content : String)
  deriving DecidableEq

/-- Observable external actions of one update step: dispatched background
tasks (`claude.RunAsync`), storage writes, subprocess launches and returned
`tea.Cmd`s. -/
inductive Effect where
  | quit
  | refreshIssues
  | blink
  | textInputCmd
  | runAsync (issueID taskType : String) (prompt : Prompt) (modelHint resume : String)
  | saveAnalysis (issueID content : String)
  | savePlan (issueID content : String)
  | saveSessionID (issueID sessionID : String)
  | updateIssueStatus (issueID : String) (status : IssueStatus) (reason : String)
  | execEditorThenSync (path issueID : String)
  | execEditorThenRefresh (path : String)
  | execImplement (sessionID : String) (prompt : Prompt)
  deriving DecidableEq

def Effect.isRunAsync : Effect → Bool
  | .runAsync _ _ _ _ _ => true
  | _ => false

/-- Result of `storage.LoadBrief`: `(issue, nil)`, `(nil, nil)` when brief.md
does not exist, or `(nil, err)` on a read/parse failure. -/
inductive LoadBriefResult where
  | ok (issue : Issue)
  | notFound
  | err
  deriving DecidableEq

/-- The external collaborators of one update step: the storage layer, the
git queries, the rune-width table and the text-input component.  Loads
return `(value, error?)` like the Go multi-value returns. -/
structure Oracle where
  runeWidth : Char → Nat
  briefPath : String → String
  analysisPath : String → String
  planPath : String → String
  analysisExists : String → Bool
  planExists : String → Bool
  isGitRepo : Bool
  hasStagedChanges : Bool
  loadBrief : String → LoadBriefResult
  loadAnalysis : String → String × Bool
  loadPlan : String → String × Bool
  loadSessionID : String → String × Bool
  createIssue : String → IssueType → Except String Issue
  textInputUpdate : String → String → String

/-- The Bubble Tea model (`internal/tui.Model`), restricted to the fields the
event handlers read or write.  The processing map is an association list;
the storage / claude handles and the styles are external and live in
`Oracle`.  The viewport and text input sub-components are flattened into
their observable fields. -/
structure Model where
  width : Int
  height : Int
  issues : List Issue
  selected : Int
  filterMode : FilterMode
  state : AppState
  statusMsg : String
  processing : List (String × String)
  spinnerFrame : Int
  textInputValue : String
  textInputFocused : Bool
  viewportWidth : Int
  viewportHeight : Int
  viewportYOffset : Int
  viewportContent : String
  confirmMsg : String
  confirmAction : Option ConfirmAction
  inputPrompt : String
  inputMode : InputMode
  pendingTitle : String
  reviewAnalysis : String
  reviewPlan : String
  hOffset : Int
  maxLineWidth : Int
  pendingCommitMsg : String
  pendingCloseIssue : Option Issue
  pendingRetryIssue : Option Issue
  pendingImplement : Bool
  listVOffset : Int
  listHOffset : Int
  listMaxLineWidth : Int
  keys : KeyMap
  deriving DecidableEq

/-- Go map assignment `m[k] = v` on the association-list model. -/
def insertP : List (String × String) → String → String → List (String × String)
  | [], k, v => [(k, v)]
  | (k', v') :: rest, k, v =>
    if k' = k then (k, v) :: rest else (k', v') :: insertP rest k v

/-- Go map deletion `delete(m, k)`. -/
def eraseP (ps : List (String × String)) (k : String) : List (String × String) :=
  ps.filter (fun kv => !(kv.1 == k))

/-- Embeds `getSelectedIssue`. -/
def getSelectedIssue (m : Model) : Option Issue :=
  if 0 ≤ m.selected ∧ m.selected < (m.issues.length : Int) then
    m.issues[m.selected.toNat]?
  else none

/-- The source's `max(a, b int)` helper. -/
def goMax (a b : Int) : Int := if a > b then a else b

/-- Embeds `ensureSelectedVisible(visibleHeight)`: clamp the selection into the list
bounds, scroll the list viewport so the selection is visible, then clamp the
vertical offset.  Each Go `if` becomes a conditional rebinding. -/
def ensureSelectedVisible (m : Model) (visibleHeight : Int) : Model :=
  if m.issues.length = 0 ∨ visibleHeight ≤ 0 then m
  else
    let sel1 := if m.selected < 0 then 0 else m.selected
    let sel2 := if sel1 ≥ (m.issues.length : Int) then (m.issues.length : Int) - 1 else sel1
    let v1 := if sel2 < m.listVOffset then sel2 else m.listVOffset
    let v2 := if sel2 ≥ v1 + visibleHeight then sel2 - visibleHeight + 1 else v1
    let maxOffset := if (m.issues.length : Int) - visibleHeight < 0 then 0
                     else (m.issues.length : Int) - visibleHeight
    let v3 := if v2 > maxOffset then maxOffset else v2
    let v4 := if v3 < 0 then 0 else v3
    { m with selected := sel2, listVOffset := v4 }

/-- The list row rendered for an issue by `calculateListMaxLineWidth`. -/
def listLine (m : Model) (issue : Issue) : String :=
  let suffix := match m.processing.lookup issue.id with
    | some taskType => " [" ++ taskType ++ "...]"
    | none => ""
  issue.ty.icon ++ " " ++ issue.statusIcon ++ " [" ++ issue.id ++ "] " ++ issue.title ++ suffix

/-- Embeds `calculateListMaxLineWidth()`. -/
def calculateListMaxLineWidth (o : Oracle) (m : Model) : Model :=
  { m with listMaxLineWidth :=
      (((m.issues.map (listLine m)).map
        (fun s => stringWidth o.runeWidth s.data)).foldl max 0 : Nat) }

/-- The `issuesLoadedMsg` branch of `Update`: replace the list wholesale,
clamp the selection, make it visible, recompute the list's max row width. -/
def issuesLoaded (o : Oracle) (m : Model) (issues : List Issue) : Model :=
  let m1 := { m with issues := issues }
  let m2 := if m1.selected ≥ (m1.issues.length : Int) then
              { m1 with selected := goMax 0 ((m1.issues.length : Int) - 1) }
            else m1
  let lvh := if m2.height - 3 < 1 then 1 else m2.height - 3
  calculateListMaxLineWidth o (ensureSelectedVisible m2 lvh)

/-- Embeds `executeAnalyzeFor(issue)`: registers the issue in the processing map
**before** validating the brief; on a missing or unreadable brief it returns
without dispatching (and without removing the entry). -/
def executeAnalyzeFor (o : Oracle) (m : Model) (issue : Issue) : Model × List Effect :=
  let m1 := { m with processing := insertP m.processing issue.id "analyze" }
  match o.loadBrief issue.id with
  | .ok brief =>
      ({ m1 with statusMsg := "Analyzing " ++ issue.id ++ "..." },
       [Effect.runAsync issue.id "analyze"
         (Prompt.analysis brief.content (o.briefPath issue.id)) "" ""])
  | _ => ({ m1 with statusMsg := "Cannot load brief" }, [])

/-- Embeds `analyzeIssue()`. -/
def analyzeIssue (o : Oracle) (m : Model) : Model × List Effect :=
  match getSelectedIssue m with
  | none => ({ m with statusMsg := "No issue selected" }, [])
  | some issue =>
    if (m.processing.lookup issue.id).isSome then
      ({ m with statusMsg := issue.id ++ " is already processing" }, [])
    else if o.analysisExists issue.id then
      ({ m with state := AppState.confirm,
                confirmMsg := "analysis.md exists for " ++ issue.id ++ ". Re-analyze?",
                pendingRetryIssue := some issue,
                confirmAction := some ConfirmAction.reAnalyze }, [])
    else executeAnalyzeFor o m issue

/-- Embeds `executePlanFor(issue)`: registers the issue, then loads the brief with
the error discarded (`brief, _ :=`) and dereferences `brief.Content`.  When
brief.md is missing or unreadable `LoadBrief` returns a nil issue and the
dereference is a nil-pointer panic, modelled by `none`. -/
def executePlanFor (o : Oracle) (m : Model) (issue : Issue) : Option (Model × List Effect) :=
  let m1 := { m with processing := insertP m.processing issue.id "plan" }
  match o.loadBrief issue.id with
  | .ok brief =>
      some ({ m1 with statusMsg := "Planning " ++ issue.id ++ "..." },
        [Effect.runAsync issue.id "plan"
          (Prompt.plan brief.content (o.loadAnalysis issue.id).1) ""
          (o.loadSessionID issue.id).1])
  | _ => none

/-- Embeds `planIssue()`. -/
def planIssue (o : Oracle) (m : Model) : Option (Model × List Effect) :=
  match getSelectedIssue m with
  | none => some ({ m with statusMsg := "No issue selected" }, [])
  | some issue =>
    if ¬ o.analysisExists issue.id then
      some ({ m with statusMsg := "Analyze first" }, [])
    else if (m.processing.lookup issue.id).isSome then
      some ({ m with statusMsg := issue.id ++ " is already processing" }, [])
    else if o.planExists issue.id then
      some ({ m with state := AppState.confirm,
                     confirmMsg := "plan.md exists for " ++ issue.id ++ ". Re-plan?",
                     pendingRetryIssue := some issue,
                     confirmAction := some ConfirmAction.rePlan }, [])
    else executePlanFor o m issue

/-- Embeds `reviewIssue()`. -/
def reviewIssue (o : Oracle) (m : Model) : Model × List Effect :=
  match getSelectedIssue m with
  | none => ({ m with statusMsg := "No issue selected" }, [])
  | some issue =>
    if ¬ o.analysisExists issue.id then
      ({ m with statusMsg := "Analyze first" }, [])
    else if (m.processing.lookup issue.id).isSome then
      ({ m with statusMsg := issue.id ++ " is already processing" }, [])
    else
      let load := o.loadAnalysis issue.id
      if load.2 then ({ m with statusMsg := "Failed to load analysis" }, [])
      else
        let vh0 := m.height - 10
        let vh := if vh0 < 10 then 10 else vh0
        let vw0 := m.width - 14
        let vw1 := if vw0 < 50 then 50 else vw0
        let vw := if vw1 > 96 then 96 else vw1
        ({ m with reviewAnalysis := load.1,
                  viewportWidth := vw, viewportHeight := vh,
                  hOffset := 0,
                  maxLineWidth := (calculateMaxLineWidth o.runeWidth load.1.data : Nat),
                  viewportContent := load.1, viewportYOffset := 0,
                  state := AppState.reviewPreview }, [])

/-- Embeds `planReviewIssue()`. -/
def planReviewIssue (o : Oracle) (m : Model) : Model × List Effect :=
  match getSelectedIssue m with
  | none => ({ m with statusMsg := "No issue selected" }, [])
  | some issue =>
    if ¬ o.planExists issue.id then
      ({ m with statusMsg := "Plan first (press \x27p\x27)" }, [])
    else if (m.processing.lookup issue.id).isSome then
      ({ m with statusMsg := issue.id ++ " is already processing" }, [])
    else
      let load := o.loadPlan issue.id
      if load.2 then ({ m with statusMsg := "Failed to load plan" }, [])
      else
        let vh0 := m.height - 10
        let vh := if vh0 < 10 then 10 else vh0
        let vw0 := m.width - 14
        let vw1 := if vw0 < 50 then 50 else vw0
        let vw := if vw1 > 96 then 96 else vw1
        ({ m with reviewPlan := load.1,
                  viewportWidth := vw, viewportHeight := vh,
                  hOffset := 0,
                  maxLineWidth := (calculateMaxLineWidth o.runeWidth load.1.data : Nat),
                  viewportContent := load.1, viewportYOffset := 0,
                  state := AppState.planPreview }, [])

/-- Embeds `executeReview(feedback)`: the review-feedback task start. -/
def executeReview (o : Oracle) (m : Model) (feedback : String) : Model × List Effect :=
  match getSelectedIssue m with
  | none => ({ m with statusMsg := "No issue selected" }, [])
  | some issue =>
    if (m.processing.lookup issue.id).isSome then
      ({ m with statusMsg := issue.id ++ " is already processing" }, [])
    else
      ({ m with processing := insertP m.processing issue.id "review",
                statusMsg := "Reviewing " ++ issue.id ++ "..." },
       [Effect.runAsync issue.id "review"
         (Prompt.review (o.loadAnalysis issue.id).1 feedback) ""
         (o.loadSessionID issue.id).1])

/-- Embeds `executePlanReview(feedback)`: the plan-feedback task start. -/
def executePlanReview (o : Oracle) (m : Model) (feedback : String) : Model × List Effect :=
  match getSelectedIssue m with
  | none => ({ m with statusMsg := "No issue selected" }, [])
  | some issue =>
    if (m.processing.lookup issue.id).isSome then
      ({ m with statusMsg := issue.id ++ " is already processing" }, [])
    else
      ({ m with processing := insertP m.processing issue.id "plan-review",
                statusMsg := "Reviewing plan " ++ issue.id ++ "..." },
       [Effect.runAsync issue.id "plan-review"
         (Prompt.planReview (o.loadPlan issue.id).1 feedback) ""
         (o.loadSessionID issue.id).1])

/-- Embeds `confirmClose()`: the close flow; note that the "commit" task is
dispatched without registering the issue in the processing map. -/
def confirmClose (o : Oracle) (m : Model) : Model × List Effect :=
  match getSelectedIssue m with
  | none => ({ m with statusMsg := "No issue selected" }, [])
  | some issue =>
    if ¬ o.planExists issue.id then
      ({ m with statusMsg := "Plan first (press \x27p\x27)" }, [])
    else if ¬ o.isGitRepo then
      ({ m with statusMsg := "Not a git repository" }, [])
    else if ¬ o.hasStagedChanges then
      ({ m with statusMsg := "No staged changes. Run \x27git add\x27 first" }, [])
    else
      ({ m with pendingCloseIssue := some issue,
                state := AppState.commitGenerating,
                statusMsg := "Generating commit message for " ++ issue.id ++ "..." },
       [Effect.runAsync issue.id "commit"
         (Prompt.commitMessage issue.id (o.loadPlan issue.id).1) "haiku" ""])

/-- Embeds `confirmDiscard()`. -/
def confirmDiscard (m : Model) : Model × List Effect :=
  match getSelectedIssue m with
  | none => ({ m with statusMsg := "No issue selected" }, [])
  | some issue =>
    ({ m with state := AppState.confirm,
              confirmMsg := "Discard issue " ++ issue.id ++ "?",
              confirmAction := some (ConfirmAction.discard issue.id) }, [])

/-- Embeds `implementIssue()`. -/
def implementIssue (o : Oracle) (m : Model) : Model × List Effect :=
  match getSelectedIssue m with
  | none => ({ m with statusMsg := "No issue selected" }, [])
  | some issue =>
    if issue.status ≠ IssueStatus.planned then
      ({ m with statusMsg := "Only planned issues can be implemented" }, [])
    else if ¬ o.planExists issue.id then
      ({ m with statusMsg := "Plan first (press \x27p\x27)" }, [])
    else if (o.loadSessionID issue.id).1 = "" then
      ({ m with statusMsg := "No session found. Re-analyze the issue first" }, [])
    else
      ({ m with state := AppState.confirm,
                confirmMsg := "Implement " ++ issue.id ++ "? This may modify code.",
                pendingRetryIssue := some issue,
                pendingImplement := true,
                confirmAction := none }, [])

/-- Embeds `executeImplementFor(issue)`: launches `claude --resume` as a blocking
foreground process. -/
def executeImplementFor (o : Oracle) (m : Model) (issue : Issue) : Model × List Effect :=
  ({ m with statusMsg := "Implementing " ++ issue.id ++ "..." },
   [Effect.execImplement (o.loadSessionID issue.id).1
     (Prompt.implement (o.planPath issue.id))])

/-- Embeds `startNewIssue()`. -/
def startNewIssue (m : Model) : Model × List Effect :=
  ({ m with state := AppState.input, inputMode := InputMode.newIssue,
            inputPrompt := "Title: ", textInputFocused := true },
   [Effect.blink])

/-- Embeds `editIssue()`. -/
def editIssue (o : Oracle) (m : Model) : Model × List Effect :=
  match getSelectedIssue m with
  | none => ({ m with statusMsg := "No issue selected" }, [])
  | some issue => (m, [Effect.execEditorThenSync (o.briefPath issue.id) issue.id])

/-- Embeds `createIssue(issueType)`: finalizes creation and opens the editor. -/
def createIssue (o : Oracle) (m : Model) (ty : IssueType) : Model × List Effect :=
  let m1 := { m with state := AppState.normal }
  match o.createIssue m1.pendingTitle ty with
  | Except.error e => ({ m1 with statusMsg := "Error: " ++ e }, [])
  | Except.ok issue =>
      ({ m1 with statusMsg := "Created " ++ issue.id ++ " - opening editor" },
       [Effect.execEditorThenSync (o.briefPath issue.id) issue.id])

/-- Interprets the stored confirm callback on "yes".  The Go callback is a
closure over a stale value copy of the model (the action methods have value
receivers), so of its writes only those through shared references survive:
the processing map, the storage layer and the dispatched task.  Its
`statusMsg` writes are lost.  `none` models the nil-pointer panic of the
re-plan closure on a missing brief. -/
def runConfirmAction (o : Oracle) (m : Model) :
    Option (List (String × String) × List Effect) :=
  match m.confirmAction with
  | none => some (m.processing, [])
  | some (ConfirmAction.discard issueID) =>
      some (m.processing,
        [Effect.updateIssueStatus issueID IssueStatus.invalid "Discarded by user"])
  | some ConfirmAction.reAnalyze =>
      match m.pendingRetryIssue with
      | none => some (m.processing, [])
      | some issue =>
        let p := insertP m.processing issue.id "analyze"
        match o.loadBrief issue.id with
        | LoadBriefResult.ok brief =>
            some (p, [Effect.runAsync issue.id "analyze"
              (Prompt.analysis brief.content (o.briefPath issue.id)) "" ""])
        | _ => some (p, [])
  | some ConfirmAction.rePlan =>
      match m.pendingRetryIssue with
      | none => some (m.processing, [])
      | some issue =>
        let p := insertP m.processing issue.id "plan"
        match o.loadBrief issue.id with
        | LoadBriefResult.ok brief =>
            some (p, [Effect.runAsync issue.id "plan"
              (Prompt.plan brief.content (o.loadAnalysis issue.id).1) ""
              (o.loadSessionID issue.id).1])
        | _ => none

/-- Embeds `handleConfirmKey(msg)`. -/
def handleConfirmKey (o : Oracle) (m : Model) (k : String) : Option (Model × List Effect) :=
  if kmatches k m.keys.yes then
    let m1 := { m with state := AppState.normal }
    match m1.pendingImplement, m1.pendingRetryIssue with
    | true, some issue =>
        some (executeImplementFor o
          { m1 with pendingRetryIssue := none, pendingImplement := false } issue)
    | _, _ =>
        match runConfirmAction o m1 with
        | none => none
        | some (p, effs) =>
            some ({ m1 with processing := p, pendingRetryIssue := none },
                  effs ++ [Effect.refreshIssues])
  else if kmatches k m.keys.no || kmatches k m.keys.escape then
    some ({ m with state := AppState.normal, pendingRetryIssue := none,
                   pendingImplement := false, statusMsg := "Cancelled" }, [])
  else some (m, [])

/-- Embeds `handleTypeSelectKey(msg)`. -/
def handleTypeSelectKey (o : Oracle) (m : Model) (k : String) : Model × List Effect :=
  if k = "f" ∨ k = "1" then createIssue o m IssueType.feature
  else if k = "b" ∨ k = "2" then createIssue o m IssueType.bug
  else if k = "r" ∨ k = "3" then createIssue o m IssueType.refactor
  else if k = "esc" then ({ m with state := AppState.normal, statusMsg := "Cancelled" }, [])
  else (m, [])

/-- Embeds `handleInputKey(msg)`: Enter commits or cancels depending on the input
mode; Escape cancels; every other key goes to the text-input component. -/
def handleInputKey (o : Oracle) (m : Model) (k : String) : Model × List Effect :=
  if k = "enter" then
    let value := m.textInputValue
    let m1 := { m with textInputValue := "" }
    match m1.inputMode with
    | InputMode.newIssue =>
        if value = "" then
          ({ m1 with state := AppState.normal, statusMsg := "Cancelled" }, [])
        else
          ({ m1 with pendingTitle := value, state := AppState.typeSelect,
                     inputMode := InputMode.none }, [])
    | InputMode.review =>
        if value = "" then
          ({ m1 with state := AppState.reviewPreview, inputMode := InputMode.none }, [])
        else
          executeReview o
            { m1 with state := AppState.normal, inputMode := InputMode.none,
                      reviewAnalysis := "" } value
    | InputMode.planReview =>
        if value = "" then
          ({ m1 with state := AppState.planPreview, inputMode := InputMode.none }, [])
        else
          executePlanReview o
            { m1 with state := AppState.normal, inputMode := InputMode.none,
                      reviewPlan := "" } value
    | InputMode.none => ({ m1 with state := AppState.normal }, [])
  else if k = "esc" then
    if m.inputMode = InputMode.review then
      ({ m with state := AppState.reviewPreview, inputMode := InputMode.none,
                textInputValue := "" }, [])
    else if m.inputMode = InputMode.planReview then
      ({ m with state := AppState.planPreview, inputMode := InputMode.none,
                textInputValue := "" }, [])
    else
      ({ m with state := AppState.normal, inputMode := InputMode.none,
                textInputValue := "", statusMsg := "Cancelled" }, [])
  else
    ({ m with textInputValue := o.textInputUpdate m.textInputValue k },
     [Effect.textInputCmd])

/-- Embeds `handleNormalKey(msg)`: the Normal-state key dispatch.  `none` models the
nil-pointer panic reachable through `planIssue`. -/
def handleNormalKey (o : Oracle) (m : Model) (k : String) : Option (Model × List Effect) :=
  let lvh := if m.height - 3 < 1 then 1 else m.height - 3
  if kmatches k m.keys.quit then some (m, [Effect.quit])
  else if kmatches k m.keys.up then
    if m.selected > 0 then
      some (ensureSelectedVisible { m with selected := m.selected - 1 } lvh, [])
    else some (m, [])
  else if kmatches k m.keys.down then
    if m.selected < (m.issues.length : Int) - 1 then
      some (ensureSelectedVisible { m with selected := m.selected + 1 } lvh, [])
    else some (m, [])
  else if kmatches k m.keys.new then some (startNewIssue m)
  else if kmatches k m.keys.edit then some (editIssue o m)
  else if kmatches k m.keys.close then some (confirmClose o m)
  else if kmatches k m.keys.discard then some (confirmDiscard m)
  else if kmatches k m.keys.analyze then some (analyzeIssue o m)
  else if kmatches k m.keys.plan then planIssue o m
  else if kmatches k m.keys.review then some (reviewIssue o m)
  else if kmatches k m.keys.planReview then some (planReviewIssue o m)
  else if kmatches k m.keys.implement then some (implementIssue o m)
  else if kmatches k m.keys.refresh then
    some ({ m with statusMsg := "Refreshed" }, [Effect.refreshIssues])
  else if kmatches k m.keys.filter then
    let fm := m.filterMode.next
    some ({ m with filterMode := fm, listVOffset := 0, listHOffset := 0,
                   statusMsg := "Filter: " ++ fm.display }, [Effect.refreshIssues])
  else
    let listWidth := Int.tdiv m.width 2 - 2
    if k = "left" then
      if m.listHOffset > 0 then
        let h1 := m.listHOffset - 5
        some ({ m with listHOffset := if h1 < 0 then 0 else h1 }, [])
      else some (m, [])
    else if k = "right" then
      let maxOffset0 := m.listMaxLineWidth - listWidth
      let maxOffset := if maxOffset0 < 0 then 0 else maxOffset0
      if m.listHOffset < maxOffset then
        let h1 := m.listHOffset + 5
        some ({ m with listHOffset := if h1 > maxOffset then maxOffset else h1 }, [])
      else some (m, [])
    else some (m, [])

def isSpaceChar (c : Char) : Bool :=
  c == ' ' || c == '\t' || c == '\n' || c == '\r'

/-- Embeds `strings.TrimSpace`. -/
def trimSpace (s : String) : String :=
  String.mk (((s.data.dropWhile isSpaceChar).reverse.dropWhile isSpaceChar).reverse)

/-- Embeds `handleResult(result)`: the single consumer of Task Results.  The entry is
removed from the processing map first, then the per-kind handling runs. -/
def handleResult (m : Model) (r : TaskResult) : Model × List Effect :=
  let m1 := { m with processing := eraseP m.processing r.issueID }
  if r.taskType = "analyze" then
    if r.success then
      ({ m1 with statusMsg := "Analyzed " ++ r.issueID },
       [Effect.saveAnalysis r.issueID r.result] ++
       (if r.sessionID ≠ "" then [Effect.saveSessionID r.issueID r.sessionID] else []) ++
       [Effect.updateIssueStatus r.issueID IssueStatus.analyzed ""])
    else ({ m1 with statusMsg := "Analyze " ++ r.issueID ++ " failed" }, [])
  else if r.taskType = "plan" then
    if r.success then
      ({ m1 with statusMsg := "Planned " ++ r.issueID },
       [Effect.savePlan r.issueID r.result,
        Effect.updateIssueStatus r.issueID IssueStatus.planned ""])
    else ({ m1 with statusMsg := "Plan " ++ r.issueID ++ " failed" }, [])
  else if r.taskType = "review" then
    if r.success then
      ({ m1 with statusMsg := "Reviewed " ++ r.issueID },
       [Effect.saveAnalysis r.issueID r.result] ++
       (if r.sessionID ≠ "" then [Effect.saveSessionID r.issueID r.sessionID] else []))
    else ({ m1 with statusMsg := "Review " ++ r.issueID ++ " failed" }, [])
  else if r.taskType = "plan-review" then
    if r.success then
      ({ m1 with statusMsg := "Plan reviewed " ++ r.issueID },
       [Effect.savePlan r.issueID r.result] ++
       (if r.sessionID ≠ "" then [Effect.saveSessionID r.issueID r.sessionID] else []))
    else ({ m1 with statusMsg := "Plan review " ++ r.issueID ++ " failed" }, [])
  else if r.taskType = "commit" then
    if r.success then
      ({ m1 with pendingCommitMsg := trimSpace r.result,
                 state := AppState.commitConfirm,
                 statusMsg := "Review commit message" }, [])
    else
      ({ m1 with state := AppState.normal, pendingCloseIssue := none,
                 statusMsg := "Commit message generation failed: " ++ r.issueID }, [])
  else (m1, [])

/-- A concrete issue for the closed evaluations. -/
def issue1 : Issue :=
  { id := "0001", title := "demo issue", ty := IssueType.feature,
    status := IssueStatus.opened, content := "demo body" }

def issue2 : Issue :=
  { id := "0002", title := "second", ty := IssueType.bug,
    status := IssueStatus.analyzed, content := "" }

def issue3 : Issue :=
  { id := "0003", title := "third", ty := IssueType.refactor,
    status := IssueStatus.planned, content := "" }

/-- A session as produced by `New` after the window size and the first issue
list arrived: Normal state, empty processing map, default key map. -/
def baseModel : Model :=
  { width := 80, height := 24, issues := [issue1], selected := 0,
    filterMode := FilterMode.active, state := AppState.normal, statusMsg := "",
    processing := [], spinnerFrame := 0, textInputValue := "",
    textInputFocused := false, viewportWidth := 40, viewportHeight := 20,
    viewportYOffset := 0, viewportContent := "", confirmMsg := "",
    confirmAction := none, inputPrompt := "", inputMode := InputMode.none,
    pendingTitle := "", reviewAnalysis := "", reviewPlan := "", hOffset := 0,
    maxLineWidth := 0, pendingCommitMsg := "", pendingCloseIssue := none,
    pendingRetryIssue := none, pendingImplement := false, listVOffset := 0,
    listHOffset := 0, listMaxLineWidth := 0, keys := DefaultKeyMap }

/-- A storage oracle for a project where no analysis or plan exists yet and
brief.md of every issue is missing, so `LoadBrief` returns a nil issue with a
nil error. -/
def noBriefOracle : Oracle :=
  { runeWidth := rwDemo,
    briefPath := fun id => "issues/" ++ id ++ "/brief.md",
    analysisPath := fun id => "issues/" ++ id ++ "/analysis.md",
    planPath := fun id => "issues/" ++ id ++ "/plan.md",
    analysisExists := fun _ => false,
    planExists := fun _ => false,
    isGitRepo := true,
    hasStagedChanges := false,
    loadBrief := fun _ => LoadBriefResult.notFound,
    loadAnalysis := fun _ => ("", false),
    loadPlan := fun _ => ("", false),
    loadSessionID := fun _ => ("", false),
    createIssue := fun t ty =>
      Except.ok { id := "0002", title := t, ty := ty,
                  status := IssueStatus.opened, content := "" },
    textInputUpdate := fun v k => v ++ k }

/-- The same project after analysis.md has appeared while brief.md is still
missing (the brief can be deleted out from under the tool at any time). -/
def analysisOnlyOracle : Oracle :=
  { noBriefOracle with
      analysisExists := fun _ => true,
      loadAnalysis := fun _ => ("analysis text", false) }

/-- A session with a background task in flight for issue 0001. -/
def busyModel : Model :=
  { baseModel with processing := [("0001", "analyze")] }

/-- A session in the review-feedback text-input overlay with an empty input
field. -/
def inputReviewModel : Model :=
  { baseModel with state := AppState.input, inputMode := InputMode.review,
                   statusMsg := "prior", reviewAnalysis := "analysis text" }

/-- A session waiting for a generated commit message for issue 0001. -/
def commitGenModel : Model :=
  { baseModel with state := AppState.commitGenerating,
                   pendingCloseIssue := some issue1,
                   statusMsg := "Generating commit message for 0001..." }

/-- A failed Task Result of kind "commit" for issue 0001. -/
def commitFailResult : TaskResult :=
  { issueID := "0001", taskType := "commit", success := false,
    result := "boom", sessionID := "" }

/-- A three-issue session with the selection on the last row and the list
scrolled to the top. -/
def threeModel : Model :=
  { baseModel with issues := [issue1, issue2, issue3], selected := 2,
                   listVOffset := 0 }

/-- Outcome of a rejected task start: no effect is produced (in particular no
`RunAsync` dispatch), the processing map is unchanged, and the status line is
one of the allowed refusal messages. -/
def noSecondStart (m : Model) (res : Model × List Effect) (allowed : List String) : Prop :=
  res.1.processing = m.processing ∧ res.2 = [] ∧ res.1.statusMsg ∈ allowed

end Lfim

namespace Lfim

theorem truncTake_append_drop (rw : Char → Nat) (w : Int) :
    ∀ (cs : List Char) (width : Int),
      truncTake rw w cs width ++ cs.drop (truncTake rw w cs width).length = cs
  | [], _ => by simp [truncTake]
  | c :: cs, width => by
    by_cases h : width + (rw c : Int) > w
    · simp [truncTake, h]
    · simp only [truncTake, if_neg h, List.length_cons, List.drop_succ_cons, List.cons_append,
        List.cons.injEq, true_and]
      exact truncTake_append_drop rw w cs (width + (rw c : Int))

theorem truncTake_width (rw : Char → Nat) (w : Int) :
    ∀ (cs : List Char) (width : Int), width ≤ w →
      width + (stringWidth rw (truncTake rw w cs width) : Int) ≤ w
  | [], _, hw => by simpa [truncTake, stringWidth] using hw
  | c :: cs, width, hw => by
    by_cases h : width + (rw c : Int) > w
    · simpa [truncTake, h, stringWidth] using hw
    · have hrec := truncTake_width rw w cs (width + (rw c : Int)) (by omega)
      simp only [truncTake, if_neg h, stringWidth, List.map_cons, List.sum_cons] at *
      push_cast at *
      omega

theorem wrapLineFuel_ne_nil (rw : Char → Nat) (w : Int) :
    ∀ (fuel : Nat) (line : List Char) (chunks : List (List Char)),
      wrapLineFuel rw w fuel line = some chunks → chunks ≠ []
  | 0, line, chunks => by
    unfold wrapLineFuel
    by_cases h : (stringWidth rw line : Int) ≤ w
    · simp only [if_pos h, Option.some.injEq]
      rintro rfl
      simp
    · simp [h]
  | Nat.succ fuel', line, chunks => by
    unfold wrapLineFuel
    by_cases h : (stringWidth rw line : Int) ≤ w
    · simp only [if_pos h, Option.some.injEq]
      rintro rfl
      simp
    · simp only [if_neg h]
      cases hrec : wrapLineFuel rw w fuel' (line.drop (truncate rw w line).length) with
      | none => simp
      | some rest =>
        simp only [Option.some.injEq]
        rintro rfl
        simp

theorem wrapLineFuel_join (rw : Char → Nat) (w : Int) :
    ∀ (fuel : Nat) (line : List Char) (chunks : List (List Char)),
      wrapLineFuel rw w fuel line = some chunks → chunks.flatten = line
  | 0, line, chunks => by
    unfold wrapLineFuel
    by_cases h : (stringWidth rw line : Int) ≤ w <;> simp [h]
    rintro rfl
    simp
  | Nat.succ fuel', line, chunks => by
    unfold wrapLineFuel
    by_cases h : (stringWidth rw line : Int) ≤ w
    · simp only [if_pos h, Option.some.injEq]
      rintro rfl
      simp
    · simp only [if_neg h]
      cases hrec : wrapLineFuel rw w fuel' (line.drop (truncate rw w line).length) with
      | none => simp
      | some rest =>
        simp only [Option.some.injEq]
        rintro rfl
        have hjoin := wrapLineFuel_join rw w fuel' _ _ hrec
        simp only [List.flatten_cons, hjoin]
        have htr : truncate rw w line = truncTake rw w line 0 := by
          unfold truncate; simp [h]
        rw [htr]
        exact truncTake_append_drop rw w line 0

theorem wrapLineFuel_width (rw : Char → Nat) (w : Int) (hw : 0 ≤ w) :
    ∀ (fuel : Nat) (line : List Char) (chunks : List (List Char)),
      wrapLineFuel rw w fuel line = some chunks →
      ∀ c ∈ chunks, (stringWidth rw c : Int) ≤ w
  | 0, line, chunks => by
    unfold wrapLineFuel
    by_cases h : (stringWidth rw line : Int) ≤ w <;> simp [h]
    rintro rfl
    simpa using h
  | Nat.succ fuel', line, chunks => by
    unfold wrapLineFuel
    by_cases h : (stringWidth rw line : Int) ≤ w
    · simp only [if_pos h, Option.some.injEq]
      rintro rfl
      simpa using h
    · simp only [if_neg h]
      cases hrec : wrapLineFuel rw w fuel' (line.drop (truncate rw w line).length) with
      | none => simp
      | some rest =>
        simp only [Option.some.injEq]
        rintro rfl c hc
        rcases List.mem_cons.mp hc with rfl | hmem
        · have htr : truncate rw w line = truncTake rw w line 0 := by
            unfold truncate; simp [h]
          rw [htr]
          have := truncTake_width rw w line 0 hw
          omega
        · exact wrapLineFuel_width rw w hw fuel' _ _ hrec c hmem

theorem splitOnNl_ne_nil : ∀ t : List Char, splitOnNl t ≠ []
  | [] => by simp [splitOnNl]
  | c :: cs => by
    unfold splitOnNl
    by_cases h : c = '\n'
    · simp [h]
    · simp only [if_neg h]
      cases hs : splitOnNl cs <;> simp

theorem splitOnNl_no_nl : ∀ (t : List Char), ∀ l ∈ splitOnNl t, '\n' ∉ l
  | [] => by simp [splitOnNl]
  | c :: cs => by
    unfold splitOnNl
    by_cases h : c = '\n'
    · simp only [if_pos h]
      intro l hl
      rcases List.mem_cons.mp hl with rfl | hmem
      · simp
      · exact splitOnNl_no_nl cs l hmem
    · simp only [if_neg h]
      cases hs : splitOnNl cs with
      | nil => exact absurd hs (splitOnNl_ne_nil cs)
      | cons l0 ls =>
        intro l hl
        rcases List.mem_cons.mp hl with rfl | hmem
        · intro hmem2
          rcases List.mem_cons.mp hmem2 with h2 | h2
          · exact h (h2.symm)
          · exact splitOnNl_no_nl cs l0 (hs ▸ List.mem_cons_self l0 ls) h2
        · exact splitOnNl_no_nl cs l (hs ▸ List.mem_cons_of_mem l0 hmem)

theorem splitOnNl_eq_self : ∀ (p : List Char), '\n' ∉ p → splitOnNl p = [p]
  | [] => by simp [splitOnNl]
  | c :: cs => by
    intro hnl
    unfold splitOnNl
    have hc : ¬ c = '\n' := fun h => hnl (h ▸ List.mem_cons_self c cs)
    simp only [if_neg hc]
    rw [splitOnNl_eq_self cs (fun h => hnl (List.mem_cons_of_mem c h))]

theorem splitOnNl_append_nl : ∀ (p t : List Char), '\n' ∉ p →
    splitOnNl (p ++ '\n' :: t) = p :: splitOnNl t
  | [], t => by simp [splitOnNl]
  | c :: cs, t => by
    intro hnl
    have hc : ¬ c = '\n' := fun h => hnl (h ▸ List.mem_cons_self c cs)
    simp only [List.cons_append, splitOnNl, if_neg hc, List.append_eq]
    rw [splitOnNl_append_nl cs t (fun h => hnl (List.mem_cons_of_mem c h))]

theorem splitOnNl_joinNl : ∀ (ps : List (List Char)),
    (∀ p ∈ ps, '\n' ∉ p) → ps ≠ [] → splitOnNl (joinNl ps) = ps
  | [], _, hne => absurd rfl hne
  | [p], hnl, _ => by
    simp only [joinNl]
    exact splitOnNl_eq_self p (hnl p (by simp))
  | p :: p' :: ps, hnl, _ => by
    simp only [joinNl]
    rw [splitOnNl_append_nl p _ (hnl p (by simp))]
    rw [splitOnNl_joinNl (p' :: ps) (fun q hq => hnl q (List.mem_cons_of_mem p hq)) (by simp)]

theorem joinNl_append : ∀ (A B : List (List Char)), A ≠ [] → B ≠ [] →
    joinNl (A ++ B) = joinNl A ++ '\n' :: joinNl B
  | [], _, hA, _ => absurd rfl hA
  | [a], B, _, hB => by
    cases B with
    | nil => exact absurd rfl hB
    | cons b bs => simp [joinNl]
  | a :: a' :: as, B, _, hB => by
    have ih := joinNl_append (a' :: as) B (by simp) hB
    have h1 : joinNl ((a :: a' :: as) ++ B) = a ++ '\n' :: joinNl ((a' :: as) ++ B) := rfl
    have h2 : joinNl (a :: a' :: as) = a ++ '\n' :: joinNl (a' :: as) := rfl
    rw [h1, ih, h2]
    simp

theorem joinNl_flatten : ∀ (cs : List (List (List Char))),
    (∀ c ∈ cs, c ≠ []) → joinNl (cs.map joinNl) = joinNl cs.flatten
  | [], _ => by simp [joinNl]
  | [A], _ => by simp [joinNl]
  | A :: B :: cs, hne => by
    have hA : A ≠ [] := hne A (by simp)
    have hBf : (B :: cs).flatten ≠ [] := by
      have hB : B ≠ [] := hne B (by simp)
      cases B with
      | nil => exact absurd rfl hB
      | cons x xs => simp
    have ih := joinNl_flatten (B :: cs) (fun c hc => hne c (List.mem_cons_of_mem A hc))
    have h1 : joinNl ((A :: B :: cs).map joinNl) =
        joinNl A ++ '\n' :: joinNl ((B :: cs).map joinNl) := rfl
    have h2 : (A :: B :: cs).flatten = A ++ (B :: cs).flatten := by simp
    rw [h1, ih, h2, joinNl_append A (B :: cs).flatten hA hBf]

theorem wrapLinesFuel_parts (rw : Char → Nat) (w : Int) (fuel : Nat) :
    ∀ (lines : List (List Char)) (cs : List (List (List Char))),
      wrapLinesFuel rw w fuel lines = some cs →
      cs.map List.flatten = lines ∧ (∀ c ∈ cs, c ≠ [])
  | [], cs => by
    unfold wrapLinesFuel
    simp only [Option.some.injEq]
    rintro rfl
    simp
  | l :: ls, cs => by
    unfold wrapLinesFuel
    cases h1 : wrapLineFuel rw w fuel l with
    | none => simp
    | some c =>
      cases h2 : wrapLinesFuel rw w fuel ls with
      | none => simp
      | some rest =>
        simp only [Option.some.injEq]
        rintro rfl
        have ih := wrapLinesFuel_parts rw w fuel ls rest h2
        refine ⟨?_, ?_⟩
        · simp only [List.map_cons, ih.1, List.cons.injEq, and_true]
          exact wrapLineFuel_join rw w fuel l c h1
        · intro x hx
          rcases List.mem_cons.mp hx with rfl | hmem
          · exact wrapLineFuel_ne_nil rw w fuel l x h1
          · exact ih.2 x hmem

theorem wrapLinesFuel_width (rw : Char → Nat) (w : Int) (hw : 0 ≤ w) (fuel : Nat) :
    ∀ (lines : List (List Char)) (cs : List (List (List Char))),
      wrapLinesFuel rw w fuel lines = some cs →
      ∀ chunk ∈ cs.flatten, (stringWidth rw chunk : Int) ≤ w
  | [], cs => by
    unfold wrapLinesFuel
    simp only [Option.some.injEq]
    rintro rfl
    simp
  | l :: ls, cs => by
    unfold wrapLinesFuel
    cases h1 : wrapLineFuel rw w fuel l with
    | none => simp
    | some c =>
      cases h2 : wrapLinesFuel rw w fuel ls with
      | none => simp
      | some rest =>
        simp only [Option.some.injEq]
        rintro rfl chunk hchunk
        rw [List.flatten_cons] at hchunk
        rcases List.mem_append.mp hchunk with hmem | hmem
        · exact wrapLineFuel_width rw w hw fuel l c h1 chunk hmem
        · exact wrapLinesFuel_width rw w hw fuel ls rest h2 chunk hmem

theorem flatten_of_flatten (l : List (List (List Char))) :
    l.flatten.flatten = (l.map List.flatten).flatten := by
  induction l with
  | nil => rfl
  | cons x xs ih => simp [ih]

theorem wrapLine_wide_diverges : ∀ fuel : Nat, wrapLineFuel rwDemo 1 fuel "世".data = none := by
  intro fuel
  induction fuel with
  | zero => decide
  | succ n ih =>
    unfold wrapLineFuel
    rw [if_neg (by decide)]
    have ht : (truncate rwDemo 1 "世".data).length = 0 := by decide
    rw [ht]
    simp only [List.drop_zero]
    rw [ih]

/-- Claim C4. The claim states that `wrapText` terminates on every input,
including width 1 with a double-width glyph.  The code diverges there:
`runewidth.Truncate` returns an empty prefix, so the line never shrinks and
the wrap loop runs forever.  The fuel-indexed evaluation of the loop returns
`none` (no result) for every amount of fuel on input `("世", 1)`. -/
theorem claim4_wrapText_diverges :
    ∀ fuel : Nat, wrapTextFuel rwDemo fuel "世".data 1 = none := by
  intro fuel
  unfold wrapTextFuel
  rw [if_neg (by decide)]
  have hs : splitOnNl "世".data = ["世".data] := by decide
  rw [hs]
  unfold wrapLinesFuel
  rw [wrapLine_wide_diverges fuel]

/-- Claim C7, amended.  `wrapText(text, w)` returns the input unchanged for
`w ≤ 0`; `applyHorizontalOffset(content, offset, width)` returns the input
unchanged when `width ≤ 0` **and** `offset ≤ 0` (for `offset > 0` it shifts
lines even when `width ≤ 0`, refuting the original claim). -/
theorem claim7_nonpositive_width (rw : Char → Nat) (fuel : Nat)
    (text content : List Char) (offset width w : Int)
    (hw : w ≤ 0) (hoff : offset ≤ 0) (hwidth : width ≤ 0) :
    wrapTextFuel rw fuel text w = some text ∧
    applyHorizontalOffset rw content offset width = content := by
  constructor
  · unfold wrapTextFuel
    rw [if_pos hw]
  · unfold applyHorizontalOffset
    rw [if_pos ⟨hoff, hwidth⟩]

/-- Claim C7 counterexample: with `width = 0` but `offset = 2`,
`applyHorizontalOffset` does rewrite the line ("abc" becomes "c"), so the
utilities are not a no-op for every offset when the width is non-positive. -/
theorem claim7_counterexample :
    applyHorizontalOffset rwDemo "abc".data 2 0 = "c".data ∧
    applyHorizontalOffset rwDemo "abc".data 2 0 ≠ "abc".data := by decide

/-- Witness for `claim7_nonpositive_width` at concrete inputs. -/
theorem claim7_witness :
    wrapTextFuel rwDemo 3 "hi".data (-1) = some "hi".data ∧
    applyHorizontalOffset rwDemo "hi".data (-2) 0 = "hi".data :=
  claim7_nonpositive_width rwDemo 3 "hi".data "hi".data (-2) 0 (-1)
    (by decide) (by decide) (by decide)

/-- Claim C8. Whenever the wrap loop terminates (`some out`) for a positive
width `W`, every line of the output has display width at most `W` (so in
particular at most `W` except possibly single over-wide glyphs, which in fact
never get emitted), and no glyph is ever split: concatenating the output
lines yields exactly the concatenation of the input lines. -/
theorem claim8_wrap_width (rw : Char → Nat) (fuel : Nat) (text : List Char)
    (W : Int) (out : List Char) (hW : 0 < W)
    (h : wrapTextFuel rw fuel text W = some out) :
    (∀ l ∈ splitOnNl out, (stringWidth rw l : Int) ≤ W) ∧
    (splitOnNl out).flatten = (splitOnNl text).flatten := by
  unfold wrapTextFuel at h
  rw [if_neg (by omega)] at h
  cases hcs : wrapLinesFuel rw W fuel (splitOnNl text) with
  | none =>
    rw [hcs] at h
    exact absurd h (by simp)
  | some cs =>
    rw [hcs] at h
    simp only [Option.some.injEq] at h
    subst h
    have hparts := wrapLinesFuel_parts rw W fuel _ _ hcs
    have hnl : ∀ chunk ∈ cs.flatten, '\n' ∉ chunk := by
      intro chunk hchunk hmem
      rcases List.mem_flatten.mp hchunk with ⟨c, hc, hcc⟩
      have hline : c.flatten ∈ splitOnNl text := by
        rw [← hparts.1]
        exact List.mem_map_of_mem List.flatten hc
      exact splitOnNl_no_nl text c.flatten hline (List.mem_flatten.mpr ⟨chunk, hcc, hmem⟩)
    have hcsne : cs ≠ [] := by
      intro hnil
      apply splitOnNl_ne_nil text
      rw [← hparts.1, hnil]
      rfl
    have hne : cs.flatten ≠ [] := by
      cases hx : cs with
      | nil => exact absurd hx hcsne
      | cons c0 rest =>
        have hc0 : c0 ≠ [] := hparts.2 c0 (hx ▸ List.mem_cons_self c0 rest)
        cases c0 with
        | nil => exact absurd rfl hc0
        | cons y ys => simp
    rw [joinNl_flatten cs hparts.2, splitOnNl_joinNl cs.flatten hnl hne]
    constructor
    · exact wrapLinesFuel_width rw W (by omega) fuel _ _ hcs
    · rw [← hparts.1]
      exact flatten_of_flatten cs

/-- Witness for `claim8_wrap_width` at a concrete input containing a wide
glyph. -/
theorem claim8_witness :
    (∀ l ∈ splitOnNl "ab\n世\nc".data, (stringWidth rwDemo l : Int) ≤ 2) ∧
    (splitOnNl "ab\n世\nc".data).flatten = (splitOnNl "ab世c".data).flatten :=
  claim8_wrap_width rwDemo 10 "ab世c".data 2 "ab\n世\nc".data
    (by decide) (by decide)

end Lfim

namespace Lfim

theorem esv_issues (m : Model) (h : Int) :
    (ensureSelectedVisible m h).issues = m.issues := by
  unfold ensureSelectedVisible
  split_ifs <;> rfl

theorem esv_fields (m : Model) (h : Int) (hne : m.issues.length ≠ 0) (hh : 1 ≤ h) :
    0 ≤ (ensureSelectedVisible m h).selected ∧
    (ensureSelectedVisible m h).selected < (m.issues.length : Int) ∧
    (ensureSelectedVisible m h).listVOffset ≤ (ensureSelectedVisible m h).selected ∧
    (ensureSelectedVisible m h).selected < (ensureSelectedVisible m h).listVOffset + h ∧
    0 ≤ (ensureSelectedVisible m h).listVOffset ∧
    ((ensureSelectedVisible m h).listVOffset + h ≤ (m.issues.length : Int) ∨
      (ensureSelectedVisible m h).listVOffset = 0) := by
  unfold ensureSelectedVisible
  rw [if_neg (by omega)]
  dsimp only
  split_ifs <;> omega

theorem esv_sel_mem (mm : Model) (hh : Int) (hlen : mm.issues.length ≠ 0)
    (hge : 1 ≤ hh) :
    0 ≤ (ensureSelectedVisible mm hh).selected ∧
    (ensureSelectedVisible mm hh).selected < (mm.issues.length : Int) :=
  ⟨(esv_fields mm hh hlen hge).1, (esv_fields mm hh hlen hge).2.1⟩

theorem esv_fixed (m : Model) (h : Int)
    (h1 : 0 ≤ m.selected) (h2 : m.selected < (m.issues.length : Int))
    (h3 : m.listVOffset ≤ m.selected) (h4 : m.selected < m.listVOffset + h)
    (h5 : 0 ≤ m.listVOffset)
    (h6 : m.listVOffset + h ≤ (m.issues.length : Int) ∨ m.listVOffset = 0) :
    ensureSelectedVisible m h = m := by
  unfold ensureSelectedVisible
  rw [if_neg (by omega)]
  dsimp only
  split_ifs <;> first | rfl | (exfalso; omega)

/-- Claim C5. For a non-empty issue list and visible height `h ≥ 1`, after
`ensureSelectedVisible(h)` the selection lies in
`[listVOffset, listVOffset + h)` and in `[0, len)`, and the operation is
idempotent. -/
theorem claim5_ensureSelectedVisible (m : Model) (h : Int)
    (hne : m.issues ≠ []) (hh : 1 ≤ h) :
    ((ensureSelectedVisible m h).listVOffset ≤ (ensureSelectedVisible m h).selected ∧
      (ensureSelectedVisible m h).selected < (ensureSelectedVisible m h).listVOffset + h) ∧
    (0 ≤ (ensureSelectedVisible m h).selected ∧
      (ensureSelectedVisible m h).selected <
        (((ensureSelectedVisible m h).issues.length : Nat) : Int)) ∧
    ensureSelectedVisible (ensureSelectedVisible m h) h = ensureSelectedVisible m h := by
  have hlen : m.issues.length ≠ 0 := fun hl => hne (List.length_eq_zero.mp hl)
  obtain ⟨f1, f2, f3, f4, f5, f6⟩ := esv_fields m h hlen hh
  have hiss : (ensureSelectedVisible m h).issues = m.issues := esv_issues m h
  refine ⟨⟨f3, f4⟩, ⟨f1, by rw [hiss]; exact f2⟩, ?_⟩
  apply esv_fixed
  · exact f1
  · rw [hiss]; exact f2
  · exact f3
  · exact f4
  · exact f5
  · rw [hiss]; exact f6

/-- Witness for `claim5_ensureSelectedVisible`: three issues, selection on the
last row, visible height 2. -/
theorem claim5_witness :
    ((ensureSelectedVisible threeModel 2).listVOffset ≤
        (ensureSelectedVisible threeModel 2).selected ∧
      (ensureSelectedVisible threeModel 2).selected <
        (ensureSelectedVisible threeModel 2).listVOffset + 2) ∧
    (0 ≤ (ensureSelectedVisible threeModel 2).selected ∧
      (ensureSelectedVisible threeModel 2).selected <
        (((ensureSelectedVisible threeModel 2).issues.length : Nat) : Int)) ∧
    ensureSelectedVisible (ensureSelectedVisible threeModel 2) 2 =
      ensureSelectedVisible threeModel 2 :=
  claim5_ensureSelectedVisible threeModel 2 (by decide) (by decide)

end Lfim

namespace Lfim

/-- Claim C1. The claim states the processing-map / in-flight-task invariant,
in particular that every insertion into the map dispatches a task on the same
step.  The code violates it: pressing analyze on an issue whose brief.md is
missing registers the issue in the processing map, then bails out of
`executeAnalyzeFor` without calling `RunAsync` (and nothing ever removes the
entry, since no Task Result will arrive for it). -/
theorem claim1_insert_without_dispatch :
    (analyzeIssue noBriefOracle baseModel).1.processing.lookup "0001" = some "analyze" ∧
    (analyzeIssue noBriefOracle baseModel).2 = [] ∧
    (analyzeIssue noBriefOracle baseModel).1.statusMsg = "Cannot load brief" := by
  decide

/-- Claim C2. The claim states no handler aborts the process, specifically that
`executePlan`/`executePlanFor` are safe when brief.md is missing.  The code is
not: `planIssue` on an issue with an analysis but no brief reaches
`executePlanFor`, which discards the `LoadBrief` error and dereferences the
nil issue (`brief.Content`), a nil-pointer panic, modelled by `none`. -/
theorem claim2_plan_nil_deref :
    planIssue analysisOnlyOracle baseModel = none := by decide

/-- Claim C3 counterexample: issue 0001 is in the processing map, yet pressing
plan while its analysis.md does not exist yields the status "Analyze first",
not the already-processing message the claim requires for every task-starting
operation. -/
theorem claim3_counterexample :
    (busyModel.processing.lookup "0001").isSome = true ∧
    (planIssue noBriefOracle busyModel).map (fun res => res.1.statusMsg) =
      some "Analyze first" ∧
    "Analyze first" ≠ "0001 is already processing" := by decide

/-- Claim C3, amended.  For an identifier already in the processing map, none
of the task-starting operations dispatches a second task and each leaves the
processing map unchanged; the status message is the already-processing
message, except that plan / review / plan-review may instead report their
missing prerequisite (which is checked before the busy check). -/
theorem claim3_busy_guard (o : Oracle) (m : Model) (issue : Issue)
    (hsel : getSelectedIssue m = some issue)
    (hproc : (m.processing.lookup issue.id).isSome = true) :
    noSecondStart m (analyzeIssue o m) [issue.id ++ " is already processing"] ∧
    (∃ res, planIssue o m = some res ∧
      noSecondStart m res [issue.id ++ " is already processing", "Analyze first"]) ∧
    noSecondStart m (reviewIssue o m)
      [issue.id ++ " is already processing", "Analyze first"] ∧
    noSecondStart m (planReviewIssue o m)
      [issue.id ++ " is already processing", "Plan first (press \x27p\x27)"] ∧
    (∀ fb, noSecondStart m (executeReview o m fb)
      [issue.id ++ " is already processing"]) ∧
    (∀ fb, noSecondStart m (executePlanReview o m fb)
      [issue.id ++ " is already processing"]) := by
  refine ⟨?_, ?_, ?_, ?_, ?_, ?_⟩
  · unfold analyzeIssue
    rw [hsel]
    simp [hproc, noSecondStart]
  · cases ha : o.analysisExists issue.id with
    | true =>
      refine ⟨({ m with statusMsg := issue.id ++ " is already processing" }, []), ?_, ?_⟩
      · unfold planIssue
        rw [hsel]
        simp [ha, hproc]
      · simp [noSecondStart]
    | false =>
      refine ⟨({ m with statusMsg := "Analyze first" }, []), ?_, ?_⟩
      · unfold planIssue
        rw [hsel]
        simp [ha]
      · simp [noSecondStart]
  · unfold reviewIssue
    rw [hsel]
    cases ha : o.analysisExists issue.id with
    | true => simp [ha, hproc, noSecondStart]
    | false => simp [ha, noSecondStart]
  · unfold planReviewIssue
    rw [hsel]
    cases hp : o.planExists issue.id with
    | true => simp [hp, hproc, noSecondStart]
    | false => simp [hp, noSecondStart]
  · intro fb
    unfold executeReview
    rw [hsel]
    simp [hproc, noSecondStart]
  · intro fb
    unfold executePlanReview
    rw [hsel]
    simp [hproc, noSecondStart]

/-- Witness for `claim3_busy_guard`: issue 0001 in flight in `busyModel`. -/
theorem claim3_witness :
    noSecondStart busyModel (analyzeIssue noBriefOracle busyModel)
      ["0001 is already processing"] ∧
    (∃ res, planIssue noBriefOracle busyModel = some res ∧
      noSecondStart busyModel res ["0001 is already processing", "Analyze first"]) ∧
    noSecondStart busyModel (reviewIssue noBriefOracle busyModel)
      ["0001 is already processing", "Analyze first"] ∧
    noSecondStart busyModel (planReviewIssue noBriefOracle busyModel)
      ["0001 is already processing", "Plan first (press \x27p\x27)"] ∧
    (∀ fb, noSecondStart busyModel (executeReview noBriefOracle busyModel fb)
      ["0001 is already processing"]) ∧
    (∀ fb, noSecondStart busyModel (executePlanReview noBriefOracle busyModel fb)
      ["0001 is already processing"]) :=
  claim3_busy_guard noBriefOracle busyModel issue1 (by decide) (by decide)

end Lfim

namespace Lfim

/-- Claim C6 counterexample: in the review-feedback input mode, Enter on an
empty field returns to the ContentPreview state (not Normal) and leaves the
status message untouched. -/
theorem claim6_counterexample :
    (handleInputKey noBriefOracle inputReviewModel "enter").1.state =
      AppState.reviewPreview ∧
    (handleInputKey noBriefOracle inputReviewModel "enter").1.state ≠
      AppState.normal ∧
    (handleInputKey noBriefOracle inputReviewModel "enter").1.statusMsg = "prior" := by
  decide

/-- Claim C6, amended.  Enter with an empty input field: in new-item mode it
cancels to Normal with the status "Cancelled"; in the review and plan-review
feedback modes it returns to the originating preview state without touching
the status message; in mode `none` it returns to Normal without a status
message. -/
theorem claim6_empty_enter (o : Oracle) (m : Model) (hempty : m.textInputValue = "") :
    (m.inputMode = InputMode.newIssue →
      (handleInputKey o m "enter").1.state = AppState.normal ∧
      (handleInputKey o m "enter").1.statusMsg = "Cancelled") ∧
    (m.inputMode = InputMode.review →
      (handleInputKey o m "enter").1.state = AppState.reviewPreview ∧
      (handleInputKey o m "enter").1.statusMsg = m.statusMsg) ∧
    (m.inputMode = InputMode.planReview →
      (handleInputKey o m "enter").1.state = AppState.planPreview ∧
      (handleInputKey o m "enter").1.statusMsg = m.statusMsg) ∧
    (m.inputMode = InputMode.none →
      (handleInputKey o m "enter").1.state = AppState.normal ∧
      (handleInputKey o m "enter").1.statusMsg = m.statusMsg) := by
  refine ⟨?_, ?_, ?_, ?_⟩ <;> intro hmode <;>
    · unfold handleInputKey
      simp [hmode, hempty]

/-- Witness for `claim6_empty_enter` in the review-feedback mode. -/
theorem claim6_witness :
    (inputReviewModel.inputMode = InputMode.newIssue →
      (handleInputKey noBriefOracle inputReviewModel "enter").1.state = AppState.normal ∧
      (handleInputKey noBriefOracle inputReviewModel "enter").1.statusMsg = "Cancelled") ∧
    (inputReviewModel.inputMode = InputMode.review →
      (handleInputKey noBriefOracle inputReviewModel "enter").1.state =
        AppState.reviewPreview ∧
      (handleInputKey noBriefOracle inputReviewModel "enter").1.statusMsg =
        inputReviewModel.statusMsg) ∧
    (inputReviewModel.inputMode = InputMode.planReview →
      (handleInputKey noBriefOracle inputReviewModel "enter").1.state =
        AppState.planPreview ∧
      (handleInputKey noBriefOracle inputReviewModel "enter").1.statusMsg =
        inputReviewModel.statusMsg) ∧
    (inputReviewModel.inputMode = InputMode.none →
      (handleInputKey noBriefOracle inputReviewModel "enter").1.state = AppState.normal ∧
      (handleInputKey noBriefOracle inputReviewModel "enter").1.statusMsg =
        inputReviewModel.statusMsg) :=
  claim6_empty_enter noBriefOracle inputReviewModel (by decide)

/-- Claim C9. Consuming a failed Task Result of kind "commit" while in
CommitGenerating reverts the state to Normal, clears the pending-close issue,
sets a failure status that carries the identifier, leaves the staged commit
message untouched, and performs no storage writes or dispatches. -/
theorem claim9_commit_failure (m : Model) (r : TaskResult)
    (_hstate : m.state = AppState.commitGenerating)
    (hk : r.taskType = "commit") (hf : r.success = false) :
    (handleResult m r).1.state = AppState.normal ∧
    (handleResult m r).1.pendingCloseIssue = none ∧
    (handleResult m r).1.statusMsg = "Commit message generation failed: " ++ r.issueID ∧
    (handleResult m r).1.pendingCommitMsg = m.pendingCommitMsg ∧
    (handleResult m r).2 = [] := by
  unfold handleResult
  rw [hk, hf]
  simp

/-- Witness for `claim9_commit_failure`. -/
theorem claim9_witness :
    (handleResult commitGenModel commitFailResult).1.state = AppState.normal ∧
    (handleResult commitGenModel commitFailResult).1.pendingCloseIssue = none ∧
    (handleResult commitGenModel commitFailResult).1.statusMsg =
      "Commit message generation failed: " ++ commitFailResult.issueID ∧
    (handleResult commitGenModel commitFailResult).1.pendingCommitMsg =
      commitGenModel.pendingCommitMsg ∧
    (handleResult commitGenModel commitFailResult).2 = [] :=
  claim9_commit_failure commitGenModel commitFailResult rfl rfl rfl

/-- Claim C10. The filter keypress in Normal state produces exactly the model
with the filter cycled, both list scroll offsets zeroed and the status line
updated — every other field, in particular the selection index, the modal
state, the pending-action context and the processing map, is unchanged — plus
a refresh command; and when the refreshed list is delivered the selection is
clamped into `[0, len)`. -/
theorem claim10_filter_key (o : Oracle) (m : Model)
    (hkeys : m.keys = DefaultKeyMap) (_hstate : m.state = AppState.normal) :
    handleNormalKey o m "f" =
      some ({ m with filterMode := m.filterMode.next, listVOffset := 0,
                     listHOffset := 0,
                     statusMsg := "Filter: " ++ m.filterMode.next.display },
            [Effect.refreshIssues]) ∧
    (∀ issues : List Issue, issues ≠ [] →
      0 ≤ (issuesLoaded o m issues).selected ∧
      (issuesLoaded o m issues).selected < (issues.length : Int)) := by
  constructor
  · unfold handleNormalKey
    rw [hkeys]
    simp [kmatches, DefaultKeyMap]
  · intro issues hne
    have hlen : issues.length ≠ 0 := fun hl => hne (List.length_eq_zero.mp hl)
    unfold issuesLoaded calculateListMaxLineWidth
    dsimp only
    split_ifs <;>
      exact esv_sel_mem _ _ (by simpa using hlen) (by omega)

/-- Witness for `claim10_filter_key`. -/
theorem claim10_witness :
    handleNormalKey noBriefOracle baseModel "f" =
      some ({ baseModel with filterMode := baseModel.filterMode.next, listVOffset := 0,
                             listHOffset := 0,
                             statusMsg := "Filter: " ++ baseModel.filterMode.next.display },
            [Effect.refreshIssues]) ∧
    (∀ issues : List Issue, issues ≠ [] →
      0 ≤ (issuesLoaded noBriefOracle baseModel issues).selected ∧
      (issuesLoaded noBriefOracle baseModel issues).selected < (issues.length : Int)) :=
  claim10_filter_key noBriefOracle baseModel rfl rfl

end Lfim
